import Mathlib

/-!
Verification development for the `sanitize_cli` comment-stripping tool
(`src/sanitize_cli/cli.py`).

The development shallowly embeds the two core pieces of the program:

* `remove_comments_with_pygments` (cli.py lines 27-94): token-driven comment
  removal with a shebang exception, blank-line collapsing and trailing-newline
  normalization.  Text is modelled as `List Char`; the Pygments tokenizer is an
  external capability, so the token stream is an explicit argument (a list of
  `(kind, text)` pairs), and the lexer-lookup / tokenization-failure outcomes
  are the constructors of `LexOutcome`.
* `process_file` (cli.py lines 96-186): the safe-rewrite protocol
  (read, dry-run short-circuit, backup, write, rollback-on-write-failure).
  The filesystem is modelled as a map from paths to contents, and the fallible
  filesystem operations (read, backup creation, write, restore) get their
  success or failure injected through a `Faults` record, mirroring the
  exception paths of the source.
* the per-file counter bookkeeping of `main` (cli.py lines 317-333).

Python-builtin behaviour that the source relies on (`str.splitlines`,
`str.strip` truthiness, `'\n'.join`, `str.startswith`) is embedded following
the documented Python semantics.
-/

/-- Python whitespace predicate: the characters stripped by `str.strip()` and
tested by `str.isspace()` (ASCII whitespace, the C1 separators, and the
Unicode space separators). -/
def isPySpace (c : Char) : Bool :=
  (0x09 ≤ c.toNat && c.toNat ≤ 0x0d) || c.toNat == 0x20 ||
  (0x1c ≤ c.toNat && c.toNat ≤ 0x1f) || c.toNat == 0x85 || c.toNat == 0xa0 ||
  c.toNat == 0x1680 || (0x2000 ≤ c.toNat && c.toNat ≤ 0x200a) ||
  c.toNat == 0x2028 || c.toNat == 0x2029 || c.toNat == 0x202f ||
  c.toNat == 0x205f || c.toNat == 0x3000

/-- Line-boundary characters of Python `str.splitlines`. -/
def isLineBreak (c : Char) : Bool :=
  c == '\n' || c == '\r' || c.toNat == 0x0b || c.toNat == 0x0c ||
  c.toNat == 0x1c || c.toNat == 0x1d || c.toNat == 0x1e || c.toNat == 0x85 ||
  c.toNat == 0x2028 || c.toNat == 0x2029

/-- Worker for `splitlines`: `cur` holds the characters of the current line in
reverse.  A `"\r\n"` pair counts as a single boundary, matching Python. -/
def splitlinesAux : List Char → List Char → List (List Char)
  | cur, [] => if cur.isEmpty then [] else [cur.reverse]
  | cur, '\r' :: '\n' :: rest => cur.reverse :: splitlinesAux [] rest
  | cur, c :: rest =>
    if isLineBreak c then cur.reverse :: splitlinesAux [] rest
    else splitlinesAux (c :: cur) rest

/-- Python `str.splitlines` on `List Char` (no trailing empty line, boundary
characters removed, `"\r\n"` is one boundary). -/
def splitlines (s : List Char) : List (List Char) :=
  splitlinesAux [] s

/-- Python `'\n'.join` on `List Char` lines. -/
def joinNL : List (List Char) → List Char
  | [] => []
  | [l] => l
  | l :: l2 :: rest => l ++ '\n' :: joinNL (l2 :: rest)

/-- Truthiness of `line.strip()`: the line holds at least one
non-whitespace character (cli.py line 72). -/
def nonBlankB (l : List Char) : Bool :=
  l.any (fun c => !isPySpace c)

/-- Python `modified_content.endswith('\n')` (cli.py line 82). -/
def endsWithNL (s : List Char) : Bool :=
  match s.getLast? with
  | some c => c == '\n'
  | none => false

/-- Python `tvalue.startswith("#!")` (cli.py line 53). -/
def startsWithShebang : List Char → Bool
  | '#' :: '!' :: _ => true
  | _ => false

/-- The text ends with exactly one trailing newline: its last character is a
newline and the character before it (if any) is not. -/
def endsWithOneNL (s : List Char) : Prop :=
  s.getLast? = some '\n' ∧ s.dropLast.getLast? ≠ some '\n'

/-- Abstraction of the Pygments token-type hierarchy: the source only tests
membership in `pygments.token.Comment` (cli.py line 56) and in
`pygments.token.Comment.Preproc` (line 52), so a kind is either a
non-comment kind or a comment kind carrying whether it lies in the
preprocessor subtree. -/
inductive TokenKind where
  | code
  | comment (preproc : Bool)
deriving DecidableEq

/-- Python `ttype in pygments.token.Comment`. -/
def tkIsComment : TokenKind → Bool
  | .comment _ => true
  | .code => false

/-- Python `ttype in pygments.token.Comment.Preproc`. -/
def tkIsPreprocComment : TokenKind → Bool
  | .comment p => p
  | .code => false

/-- A Pygments token: a `(ttype, tvalue)` pair. -/
structure Token where
  kind : TokenKind
  value : List Char
deriving DecidableEq

/-- Loop state of the token loop of `remove_comments_with_pygments`
(cli.py lines 44-61): `new_content_parts`, `first_token` and `modified`. -/
structure StripState where
  parts : List (List Char)
  firstToken : Bool
  modified : Bool
deriving DecidableEq

/-- One iteration of the token loop (cli.py lines 49-61): compute
`is_shebang`, drop comment tokens that are not the shebang (setting
`modified`), append every other token and clear `first_token`. -/
def stepToken (s : StripState) (t : Token) : StripState :=
  let is_shebang := s.firstToken && tkIsPreprocComment t.kind && startsWithShebang t.value
  if tkIsComment t.kind && !is_shebang then
    { s with modified := true }
  else
    { parts := s.parts ++ [t.value], firstToken := false, modified := s.modified }

/-- The whole token loop, started from `new_content_parts = []`,
`first_token = True`, `modified = False` (cli.py lines 44-46). -/
def stripFold (ts : List Token) : StripState :=
  ts.foldl stepToken { parts := [], firstToken := true, modified := false }

/-- `"".join(new_content_parts)` (cli.py line 66). -/
def survivorText (ts : List Token) : List Char :=
  List.flatten (stripFold ts).parts

/-- Blank-line collapsing (cli.py lines 68-79): keep every line holding a
non-whitespace character and reset the blank counter; keep a blank line only
when the incremented counter is still at most one. -/
def collapseLines : List (List Char) → Nat → List (List Char)
  | [], _ => []
  | line :: rest, cbl =>
    if nonBlankB line then line :: collapseLines rest 0
    else if cbl + 1 ≤ 1 then line :: collapseLines rest (cbl + 1)
    else collapseLines rest (cbl + 1)

/-- The collapsed text: survivors joined, split into lines, collapsed, and
re-joined with newlines (cli.py lines 66-80). -/
def collapsedText (ts : List Token) : List Char :=
  joinNL (collapseLines (splitlines (survivorText ts)) 0)

/-- Trailing-newline normalization (cli.py lines 82-85): a non-empty text not
ending in a newline gets one appended; otherwise (and only otherwise, because
the source uses `elif`) an entirely-whitespace text becomes empty. -/
def normalizeText (mc : List Char) : List Char :=
  if mc ≠ [] ∧ endsWithNL mc = false then mc ++ ['\n']
  else if mc.all isPySpace then []
  else mc

/-- The token-processing part of `remove_comments_with_pygments`
(cli.py lines 44-90), given the token stream: if no comment was dropped,
return the original content unchanged; otherwise reflow the survivors and
recompute the removed count and the modified flag from the final lengths. -/
def stripTokens (content : List Char) (ts : List Token) : List Char × Bool × Int :=
  if (stripFold ts).modified = false then
    (content, false, 0)
  else
    let modified_content := normalizeText (collapsedText ts)
    let removed_count : Int := (content.length : Int) - (modified_content.length : Int)
    (modified_content, removed_count != 0, removed_count)

/-- Outcome of the external Pygments calls for one file: no lexer for the
filename (cli.py lines 37-42), a failure raised while iterating the tokens
(lines 92-94), or a token stream. -/
inductive LexOutcome where
  | noLexer
  | tokenizeFails
  | tokens (ts : List Token)
deriving DecidableEq

/-- `remove_comments_with_pygments` (cli.py lines 27-94): the no-lexer and
tokenization-failure paths return the content unchanged with
`was_modified = False` and `chars_removed = 0`; otherwise the token stream is
processed. -/
def remove_comments_with_pygments (content : List Char) (lex : LexOutcome) :
    List Char × Bool × Int :=
  match lex with
  | .noLexer => (content, false, 0)
  | .tokenizeFails => (content, false, 0)
  | .tokens ts => stripTokens content ts

/-- A filesystem path, as its character string. -/
abbrev FPath := List Char

/-- The filesystem: a map from paths to file contents. -/
abbrev FS := FPath → Option (List Char)

/-- Write (create or overwrite) a file. -/
def FS.write (fs : FS) (p : FPath) (c : List Char) : FS :=
  fun q => if q = p then some c else fs q

/-- Remove a file. -/
def FS.erase (fs : FS) (p : FPath) : FS :=
  fun q => if q = p then none else fs q

/-- The empty filesystem. -/
def emptyFS : FS := fun _ => none

/-- FPath concatenation with the separator. -/
def joinPath (a b : FPath) : FPath := a ++ '/' :: b

/-- cli.py line 19. -/
def DEFAULT_BACKUP_DIR_NAME : FPath :=
  ['.', 's', 'a', 'n', 'i', 't', 'i', 'z', 'e', '_', 'b', 'a', 'c', 'k', 'u', 'p', 's']

/-- The backup path of a file (cli.py lines 135-137): mirror the relative path
under the backup root inside the target directory; `with_suffix` with
`file_path.suffix + ".bak"` appends `".bak"` to the filename. -/
def backupPathFor (targetDir relPath : FPath) : FPath :=
  joinPath (joinPath targetDir DEFAULT_BACKUP_DIR_NAME) (relPath ++ ['.', 'b', 'a', 'k'])

/-- The command-line flags consulted by `process_file`. -/
structure Args where
  dry_run : Bool
  backup : Bool
  force_unsafe : Bool
deriving DecidableEq

/-- Injected success or failure of the fallible filesystem operations of
`process_file`: reading the file, creating the backup (mkdir + copy2),
writing the residual text, and moving the backup back.  `leftoverContent` is
the content the original path holds after a failed write (a failed
`write_text` may leave the file truncated or partially written). -/
structure Faults where
  readFails : Bool
  backupFails : Bool
  writeFails : Bool
  restoreFails : Bool
  leftoverContent : List Char

/-- Observable outcome of `process_file`: the resulting filesystem, the
boolean return value, whether the rollback `shutil.move` was attempted
(cli.py line 164), whether the CRITICAL restore-failure report was emitted
(line 168), whether a backup copy was made this call (line 142), whether a
write of the residual text was attempted (line 154), and the
would-modify report of a dry run with its removed-character count
(line 129). -/
structure PFResult where
  fs : FS
  ret : Bool
  restoreAttempted : Bool
  criticalReported : Bool
  backupCreated : Bool
  wroteAttempted : Bool
  dryRunReport : Option Int

/-- `process_file` (cli.py lines 96-186).  Reads the file (any read failure
returns `False` with the filesystem untouched, lines 107-119), strips
comments, and if nothing changed returns `False` (lines 170-180).  Otherwise:
dry-run reports and stops (lines 128-130); with `--backup` the original is
copied to the backup path unless backup creation fails, in which case the
modification is aborted unless `--force-unsafe` (lines 132-151); the residual
text is written (line 154); on a write failure, if backups are on and a file
exists at the backup path it is moved back onto the original path, and a
failure of that restore is the CRITICAL outcome (lines 158-169). -/
def process_file (fs : FS) (targetDir relPath : FPath) (args : Args)
    (lex : LexOutcome) (faults : Faults) : PFResult :=
  let file_path := joinPath targetDir relPath
  if faults.readFails then
    ⟨fs, false, false, false, false, false, none⟩
  else
    match fs file_path with
    | none => ⟨fs, false, false, false, false, false, none⟩
    | some original_content =>
      let res := remove_comments_with_pygments original_content lex
      let modified_content := res.1
      let was_modified := res.2.1
      let chars_removed := res.2.2
      if was_modified then
        if args.dry_run then
          ⟨fs, true, false, false, false, false, some chars_removed⟩
        else
          let backup_path := backupPathFor targetDir relPath
          let bres : FS × Bool × Bool :=
            if args.backup then
              if faults.backupFails then
                if args.force_unsafe = false then (fs, true, false)
                else (fs, false, false)
              else (FS.write fs backup_path original_content, false, true)
            else (fs, false, false)
          let fs1 := bres.1
          if bres.2.1 then
            ⟨fs1, false, false, false, false, false, none⟩
          else
            if faults.writeFails then
              let fs2 := FS.write fs1 file_path faults.leftoverContent
              if args.backup then
                match fs2 backup_path with
                | some backup_content =>
                  if faults.restoreFails then
                    ⟨fs2, false, true, true, bres.2.2, true, none⟩
                  else
                    ⟨FS.write (FS.erase fs2 backup_path) file_path backup_content,
                      false, true, false, bres.2.2, true, none⟩
                | none => ⟨fs2, false, false, false, bres.2.2, true, none⟩
              else ⟨fs2, false, false, false, bres.2.2, true, none⟩
            else
              ⟨FS.write fs1 file_path modified_content, true, false, false,
                bres.2.2, true, none⟩
      else
        ⟨fs, false, false, false, false, false, none⟩

/-- The run counters of `main` (cli.py lines 280-284). -/
structure Counters where
  processed : Nat
  modified : Nat
  skippedNoLexer : Nat
  skippedOther : Nat
  errors : Nat
deriving DecidableEq

/-- Per-file bookkeeping of `main` for a dispatched file (cli.py lines
317-330): increment `processed_count`; on a `True` return increment
`modified_count`; on a `False` return increment `skipped_no_lexer_count`
exactly when the lexer lookup raises ClassNotFound.  The surrounding
`except` that increments `error_count` (lines 331-333) is not reachable from
per-file failures because `process_file` catches every exception internally
(lines 105 and 182-186). -/
def tallyFile (c : Counters) (ret : Bool) (lexerFound : Bool) : Counters :=
  let c1 : Counters := { c with processed := c.processed + 1 }
  if ret then { c1 with modified := c1.modified + 1 }
  else if lexerFound = false then { c1 with skippedNoLexer := c1.skippedNoLexer + 1 }
  else c1

/-- A token in the loop is dropped exactly when it is comment-classified and
not preprocessor-style-with-shebang-text; over a prefix consisting only of
such tokens `first_token` stays `True`. -/
def isDroppedCommentB (t : Token) : Bool :=
  tkIsComment t.kind && !(tkIsPreprocComment t.kind && startsWithShebang t.value)

mutual
/-- Modelled from the spec: blank-line collapsing as the spec words it — a
run of N ≥ 1 consecutive blank lines collapses to exactly one blank line,
and non-blank lines pass through unchanged and in order. -/
def collapseSpec : List (List Char) → List (List Char)
  | [] => []
  | l :: rest =>
    if nonBlankB l then l :: collapseSpec rest
    else l :: skipBlanksSpec rest

/-- Modelled from the spec: after the one kept blank line, skip the rest of
the run of blank lines, then continue collapsing. -/
def skipBlanksSpec : List (List Char) → List (List Char)
  | [] => []
  | l :: rest =>
    if nonBlankB l then l :: collapseSpec rest
    else skipBlanksSpec rest
end

/-- No two adjacent lines are both blank. -/
def noTwoAdjBlank : List (List Char) → Prop
  | a :: b :: rest => (nonBlankB a = true ∨ nonBlankB b = true) ∧ noTwoAdjBlank (b :: rest)
  | _ => True

/-- A tokenizer is lossless when concatenating its token texts restores the
input (the spec's invariant on the Tokenizer Adapter). -/
def LosslessTokenizer (tok : List Char → List Token) : Prop :=
  ∀ s, List.flatten ((tok s).map Token.value) = s

/-- A concrete deterministic lossless tokenizer on which stripping is not
idempotent: it tokenizes the three-character input as code then comment, and
tokenizes the residual of stripping that input as one comment token. -/
def cexTokenizer (s : List Char) : List Token :=
  if s = ['x', '#', 'c'] then [⟨.code, ['x']⟩, ⟨.comment false, ['#', 'c']⟩]
  else if s = ['x', '\n'] then [⟨.comment false, ['x', '\n']⟩]
  else [⟨.code, s⟩]

theorem FS.write_self (fs : FS) (p : FPath) (c : List Char) : FS.write fs p c p = some c := by
  simp [FS.write]

theorem FS.write_other (fs : FS) (p : FPath) (c : List Char) (q : FPath) (h : q ≠ p) :
    FS.write fs p c q = fs q := by
  simp [FS.write, h]

theorem backupPathFor_ne_joinPath (targetDir relPath : FPath) :
    backupPathFor targetDir relPath ≠ joinPath targetDir relPath := by
  intro h
  have hlen := congrArg List.length h
  simp [backupPathFor, joinPath, DEFAULT_BACKUP_DIR_NAME] at hlen
  omega

theorem strip_count (content : List Char) (lex : LexOutcome) :
    (remove_comments_with_pygments content lex).2.2 =
      (content.length : Int) - ((remove_comments_with_pygments content lex).1.length : Int) ∧
    (remove_comments_with_pygments content lex).2.1 =
      ((remove_comments_with_pygments content lex).2.2 != 0) := by
  cases lex with
  | noLexer => simp [remove_comments_with_pygments]
  | tokenizeFails => simp [remove_comments_with_pygments]
  | tokens ts =>
    simp only [remove_comments_with_pygments, stripTokens]
    split
    · simp
    · simp

theorem process_file_unmodified (fs : FS) (targetDir relPath : FPath) (args : Args)
    (lex : LexOutcome) (faults : Faults) (content : List Char)
    (h1 : faults.readFails = false)
    (h2 : fs (joinPath targetDir relPath) = some content)
    (h3 : (remove_comments_with_pygments content lex).2.1 = false) :
    process_file fs targetDir relPath args lex faults =
      ⟨fs, false, false, false, false, false, none⟩ := by
  simp only [process_file, h1, h2]
  simp [h3]

/-- C4: for every strip invocation the returned triple satisfies
charsRemoved = len(originalText) - len(residualText) and
wasModified = (charsRemoved != 0); and whenever wasModified is false
(in particular when collapsing reduced the removed count to zero),
`process_file` performs no write and leaves the filesystem unchanged. -/
theorem c4_strip_result_consistency (content : List Char) (lex : LexOutcome) :
    ((remove_comments_with_pygments content lex).2.2 =
      (content.length : Int) - ((remove_comments_with_pygments content lex).1.length : Int)) ∧
    ((remove_comments_with_pygments content lex).2.1 =
      ((remove_comments_with_pygments content lex).2.2 != 0)) ∧
    (∀ (fs : FS) (targetDir relPath : FPath) (args : Args) (faults : Faults),
      faults.readFails = false →
      fs (joinPath targetDir relPath) = some content →
      (remove_comments_with_pygments content lex).2.1 = false →
      (process_file fs targetDir relPath args lex faults).fs = fs ∧
      (process_file fs targetDir relPath args lex faults).wroteAttempted = false) := by
  refine ⟨(strip_count content lex).1, (strip_count content lex).2, ?_⟩
  intro fs targetDir relPath args faults h1 h2 h3
  rw [process_file_unmodified fs targetDir relPath args lex faults content h1 h2 h3]
  exact ⟨rfl, rfl⟩

/-- Witness for C4 at a concrete input: a file whose only token is a comment
that collapses the residual to the empty string with two removed characters,
and a no-lexer file for the unmodified no-write conjunct. -/
theorem c4_strip_result_consistency_witness :
    ((remove_comments_with_pygments ['#', 'a'] LexOutcome.noLexer).2.2 =
      ((['#', 'a'] : List Char).length : Int) -
        (((remove_comments_with_pygments ['#', 'a'] LexOutcome.noLexer).1.length : Int))) ∧
    ((process_file (FS.write emptyFS (joinPath ['t'] ['a']) ['#', 'a'])
        ['t'] ['a'] ⟨false, false, false⟩ LexOutcome.noLexer
        ⟨false, false, false, false, []⟩).fs =
      FS.write emptyFS (joinPath ['t'] ['a']) ['#', 'a']) := by
  refine ⟨(c4_strip_result_consistency ['#', 'a'] LexOutcome.noLexer).1, ?_⟩
  exact ((c4_strip_result_consistency ['#', 'a'] LexOutcome.noLexer).2.2
    (FS.write emptyFS (joinPath ['t'] ['a']) ['#', 'a'])
    ['t'] ['a'] ⟨false, false, false⟩ ⟨false, false, false, false, []⟩
    rfl (by decide) rfl).1

/-- C8: with dry-run active and wasModified true, `process_file` performs no
filesystem mutation at all (the filesystem is returned untouched, no backup,
no write) and reports the would-be change with the removed-character count,
which equals the length difference between original and residual text. -/
theorem c8_dry_run_no_mutation (fs : FS) (targetDir relPath : FPath) (args : Args)
    (lex : LexOutcome) (faults : Faults) (content : List Char)
    (h1 : faults.readFails = false)
    (h2 : fs (joinPath targetDir relPath) = some content)
    (h3 : args.dry_run = true)
    (h4 : (remove_comments_with_pygments content lex).2.1 = true) :
    process_file fs targetDir relPath args lex faults =
      ⟨fs, true, false, false, false, false,
        some (remove_comments_with_pygments content lex).2.2⟩ ∧
    (remove_comments_with_pygments content lex).2.2 =
      (content.length : Int) - ((remove_comments_with_pygments content lex).1.length : Int) := by
  constructor
  · simp only [process_file, h1, h2]
    simp [h3, h4]
  · exact (strip_count content lex).1

/-- Witness for C8 at a concrete input: one comment-bearing one-token file. -/
theorem c8_dry_run_no_mutation_witness :
    process_file (FS.write emptyFS (joinPath ['t'] ['a']) ['#', 'a'])
        ['t'] ['a'] ⟨true, false, false⟩
        (LexOutcome.tokens [⟨.comment false, ['#', 'a']⟩])
        ⟨false, false, false, false, []⟩ =
      ⟨FS.write emptyFS (joinPath ['t'] ['a']) ['#', 'a'], true, false, false, false, false,
        some (remove_comments_with_pygments ['#', 'a']
          (LexOutcome.tokens [⟨.comment false, ['#', 'a']⟩])).2.2⟩ :=
  (c8_dry_run_no_mutation (FS.write emptyFS (joinPath ['t'] ['a']) ['#', 'a'])
    ['t'] ['a'] ⟨true, false, false⟩ (LexOutcome.tokens [⟨.comment false, ['#', 'a']⟩])
    ⟨false, false, false, false, []⟩ ['#', 'a'] rfl (by decide) rfl (by decide)).1

/-- C6 (amended): a tokenizer failure during iteration returns the original
text unchanged with wasModified = false; `process_file` returns False with the
filesystem untouched (the run goes on), and in the run counters the file is
counted as processed but NOT as an error — the error counter is unchanged. -/
theorem c6_tokenization_failure_local (fs : FS) (targetDir relPath : FPath)
    (args : Args) (faults : Faults) (content : List Char) (counters : Counters)
    (h1 : faults.readFails = false)
    (h2 : fs (joinPath targetDir relPath) = some content) :
    remove_comments_with_pygments content LexOutcome.tokenizeFails = (content, false, 0) ∧
    process_file fs targetDir relPath args LexOutcome.tokenizeFails faults =
      ⟨fs, false, false, false, false, false, none⟩ ∧
    (tallyFile counters
      (process_file fs targetDir relPath args LexOutcome.tokenizeFails faults).ret
      true).errors = counters.errors ∧
    (tallyFile counters
      (process_file fs targetDir relPath args LexOutcome.tokenizeFails faults).ret
      true).processed = counters.processed + 1 ∧
    (tallyFile counters
      (process_file fs targetDir relPath args LexOutcome.tokenizeFails faults).ret
      true).skippedNoLexer = counters.skippedNoLexer := by
  have hp := process_file_unmodified fs targetDir relPath args LexOutcome.tokenizeFails
    faults content h1 h2 rfl
  refine ⟨rfl, hp, ?_, ?_, ?_⟩ <;> rw [hp] <;> simp [tallyFile]

/-- Witness for C6 at a concrete input. -/
theorem c6_tokenization_failure_local_witness :
    (tallyFile ⟨0, 0, 0, 0, 0⟩
      (process_file (FS.write emptyFS (joinPath ['t'] ['a']) ['#', 'a'])
        ['t'] ['a'] ⟨false, false, false⟩ LexOutcome.tokenizeFails
        ⟨false, false, false, false, []⟩).ret true).errors = (0 : Nat) ∧
    (tallyFile ⟨0, 0, 0, 0, 0⟩
      (process_file (FS.write emptyFS (joinPath ['t'] ['a']) ['#', 'a'])
        ['t'] ['a'] ⟨false, false, false⟩ LexOutcome.tokenizeFails
        ⟨false, false, false, false, []⟩).ret true).processed = (1 : Nat) := by
  have h := c6_tokenization_failure_local
    (FS.write emptyFS (joinPath ['t'] ['a']) ['#', 'a']) ['t'] ['a']
    ⟨false, false, false⟩ ⟨false, false, false, false, []⟩ ['#', 'a']
    ⟨0, 0, 0, 0, 0⟩ rfl (by decide)
  exact ⟨h.2.2.1, h.2.2.2.1⟩

/-- C6 counterexample to the claim as stated: a file whose tokenization
fails is NOT counted as an error in the run counters — after processing it
the error counter is still zero (the claim requires it to be counted as an
error), even though the file was dispatched and counted as processed. -/
theorem c6_counterexample_not_counted_as_error :
    (process_file (FS.write emptyFS (joinPath ['t'] ['a']) ['#', 'a'])
      ['t'] ['a'] ⟨false, false, false⟩ LexOutcome.tokenizeFails
      ⟨false, false, false, false, []⟩).ret = false ∧
    (tallyFile ⟨0, 0, 0, 0, 0⟩
      (process_file (FS.write emptyFS (joinPath ['t'] ['a']) ['#', 'a'])
        ['t'] ['a'] ⟨false, false, false⟩ LexOutcome.tokenizeFails
        ⟨false, false, false, false, []⟩).ret true) = ⟨1, 0, 0, 0, 0⟩ := by
  decide

/-- C7: when backup creation fails for a to-be-modified file, the
modification is aborted with the filesystem untouched unless `--force-unsafe`
is set, in which case the write is attempted with no backup created; if that
write succeeds, the residual text lands at the original path. -/
theorem c7_backup_failure_abort_or_force (fs : FS) (targetDir relPath : FPath)
    (args : Args) (lex : LexOutcome) (faults : Faults) (content : List Char)
    (h1 : faults.readFails = false)
    (h2 : fs (joinPath targetDir relPath) = some content)
    (h3 : (remove_comments_with_pygments content lex).2.1 = true)
    (h4 : args.dry_run = false)
    (h5 : args.backup = true)
    (h6 : faults.backupFails = true) :
    (args.force_unsafe = false →
      process_file fs targetDir relPath args lex faults =
        ⟨fs, false, false, false, false, false, none⟩) ∧
    (args.force_unsafe = true →
      (process_file fs targetDir relPath args lex faults).backupCreated = false ∧
      (process_file fs targetDir relPath args lex faults).wroteAttempted = true ∧
      (faults.writeFails = false →
        process_file fs targetDir relPath args lex faults =
          ⟨FS.write fs (joinPath targetDir relPath)
              (remove_comments_with_pygments content lex).1,
            true, false, false, false, true, none⟩)) := by
  constructor
  · intro hfu
    simp only [process_file, h1, h2]
    simp [h3, h4, h5, h6, hfu]
  · intro hfu
    refine ⟨?_, ?_, ?_⟩
    · simp only [process_file, h1, h2]
      simp [h3, h4, h5, h6, hfu]
      split
      · cases hm : FS.write fs (joinPath targetDir relPath) faults.leftoverContent
            (backupPathFor targetDir relPath) with
        | none => rfl
        | some bc => by_cases hr : faults.restoreFails = true <;> simp [hr]
      · rfl
    · simp only [process_file, h1, h2]
      simp [h3, h4, h5, h6, hfu]
      split
      · cases hm : FS.write fs (joinPath targetDir relPath) faults.leftoverContent
            (backupPathFor targetDir relPath) with
        | none => rfl
        | some bc => by_cases hr : faults.restoreFails = true <;> simp [hr]
      · rfl
    · intro hwf
      simp only [process_file, h1, h2]
      simp [h3, h4, h5, h6, hfu, hwf]

/-- Witness for C7 at a concrete input: backup creation fails without
`--force-unsafe`, so the file is left untouched and the call returns False. -/
theorem c7_backup_failure_abort_or_force_witness :
    process_file (FS.write emptyFS (joinPath ['t'] ['a']) ['#', 'a'])
        ['t'] ['a'] ⟨false, true, false⟩
        (LexOutcome.tokens [⟨.comment false, ['#', 'a']⟩])
        ⟨false, true, false, false, []⟩ =
      ⟨FS.write emptyFS (joinPath ['t'] ['a']) ['#', 'a'],
        false, false, false, false, false, none⟩ :=
  (c7_backup_failure_abort_or_force (FS.write emptyFS (joinPath ['t'] ['a']) ['#', 'a'])
    ['t'] ['a'] ⟨false, true, false⟩ (LexOutcome.tokens [⟨.comment false, ['#', 'a']⟩])
    ⟨false, true, false, false, []⟩ ['#', 'a']
    rfl (by decide) (by decide) rfl rfl rfl).1 rfl

/-- C1 (amended): with backup enabled, a successful backup, a failing write
and a successful rollback, the original path again holds the pre-run content —
but the backup file does NOT survive: the rollback moves it back onto the
original path, so nothing remains at the mirrored backup path. -/
theorem c1_rollback_restores_original (fs : FS) (targetDir relPath : FPath)
    (args : Args) (lex : LexOutcome) (faults : Faults) (content : List Char)
    (h1 : faults.readFails = false)
    (h2 : fs (joinPath targetDir relPath) = some content)
    (h3 : (remove_comments_with_pygments content lex).2.1 = true)
    (h4 : args.dry_run = false)
    (h5 : args.backup = true)
    (h6 : faults.backupFails = false)
    (h7 : faults.writeFails = true)
    (h8 : faults.restoreFails = false) :
    (process_file fs targetDir relPath args lex faults).fs (joinPath targetDir relPath) =
      some content ∧
    (process_file fs targetDir relPath args lex faults).fs (backupPathFor targetDir relPath) =
      none ∧
    (process_file fs targetDir relPath args lex faults).backupCreated = true ∧
    (process_file fs targetDir relPath args lex faults).restoreAttempted = true ∧
    (process_file fs targetDir relPath args lex faults).ret = false := by
  have hne := backupPathFor_ne_joinPath targetDir relPath
  have hbp : FS.write (FS.write fs (backupPathFor targetDir relPath) content)
      (joinPath targetDir relPath) faults.leftoverContent (backupPathFor targetDir relPath) =
      some content := by
    rw [FS.write_other _ _ _ _ hne, FS.write_self]
  simp only [process_file, h1, h2]
  simp [h3, h4, h5, h6, h7, h8, hbp, FS.write, FS.erase, hne]

/-- Witness for C1 at a concrete input. -/
theorem c1_rollback_restores_original_witness :
    (process_file (FS.write emptyFS (joinPath ['t'] ['a']) ['#', 'a'])
        ['t'] ['a'] ⟨false, true, false⟩
        (LexOutcome.tokens [⟨.comment false, ['#', 'a']⟩])
        ⟨false, false, true, false, []⟩).fs (joinPath ['t'] ['a']) = some ['#', 'a'] ∧
    (process_file (FS.write emptyFS (joinPath ['t'] ['a']) ['#', 'a'])
        ['t'] ['a'] ⟨false, true, false⟩
        (LexOutcome.tokens [⟨.comment false, ['#', 'a']⟩])
        ⟨false, false, true, false, []⟩).fs (backupPathFor ['t'] ['a']) = none := by
  have h := c1_rollback_restores_original
    (FS.write emptyFS (joinPath ['t'] ['a']) ['#', 'a']) ['t'] ['a']
    ⟨false, true, false⟩ (LexOutcome.tokens [⟨.comment false, ['#', 'a']⟩])
    ⟨false, false, true, false, []⟩ ['#', 'a']
    rfl (by decide) (by decide) rfl rfl rfl rfl rfl
  exact ⟨h.1, h.2.1⟩

/-- C1 counterexample to the claim as stated: after the rollback the original
file is restored, but NO backup file exists at the mirrored path — the
rollback consumed it (shutil.move), contradicting the claim's assertion that
a backup file with the original content still exists there. -/
theorem c1_counterexample_backup_consumed :
    (process_file (FS.write emptyFS (joinPath ['t'] ['a']) ['#', 'a'])
        ['t'] ['a'] ⟨false, true, false⟩
        (LexOutcome.tokens [⟨.comment false, ['#', 'a']⟩])
        ⟨false, false, true, false, []⟩).restoreAttempted = true ∧
    (process_file (FS.write emptyFS (joinPath ['t'] ['a']) ['#', 'a'])
        ['t'] ['a'] ⟨false, true, false⟩
        (LexOutcome.tokens [⟨.comment false, ['#', 'a']⟩])
        ⟨false, false, true, false, []⟩).fs (joinPath ['t'] ['a']) = some ['#', 'a'] ∧
    ¬ ((process_file (FS.write emptyFS (joinPath ['t'] ['a']) ['#', 'a'])
        ['t'] ['a'] ⟨false, true, false⟩
        (LexOutcome.tokens [⟨.comment false, ['#', 'a']⟩])
        ⟨false, false, true, false, []⟩).fs (backupPathFor ['t'] ['a']) = some ['#', 'a']) := by
  decide

/-- C10 (amended): a rollback is attempted only when backup mode is on, the
write failed, and a file was present at the backup path — either the backup
created this call or a pre-existing (stale) file at that path.  When the
unsafe override let the write proceed after a failed backup creation AND no
stale file sits at the backup path, a write failure yields no restore
attempt, no critical report, and an ordinary False return; with a stale
backup present, however, a restore is attempted from it. -/
theorem c10_restore_guard (fs : FS) (targetDir relPath : FPath)
    (args : Args) (lex : LexOutcome) (faults : Faults) (content : List Char)
    (h1 : faults.readFails = false)
    (h2 : fs (joinPath targetDir relPath) = some content)
    (h3 : (remove_comments_with_pygments content lex).2.1 = true)
    (h4 : args.dry_run = false) :
    ((process_file fs targetDir relPath args lex faults).restoreAttempted = true →
      args.backup = true ∧ faults.writeFails = true ∧
      ((process_file fs targetDir relPath args lex faults).backupCreated = true ∨
        fs (backupPathFor targetDir relPath) ≠ none)) ∧
    (args.backup = true → faults.backupFails = true → args.force_unsafe = true →
      faults.writeFails = true → fs (backupPathFor targetDir relPath) = none →
      (process_file fs targetDir relPath args lex faults).restoreAttempted = false ∧
      (process_file fs targetDir relPath args lex faults).criticalReported = false ∧
      (process_file fs targetDir relPath args lex faults).ret = false) := by
  have hne := backupPathFor_ne_joinPath targetDir relPath
  constructor
  · intro hra
    by_cases hb : args.backup = true
    · by_cases hwf : faults.writeFails = true
      · by_cases hbf : faults.backupFails = true
        · by_cases hfu : args.force_unsafe = true
          · have hm : FS.write fs (joinPath targetDir relPath) faults.leftoverContent
                (backupPathFor targetDir relPath) = fs (backupPathFor targetDir relPath) :=
              FS.write_other _ _ _ _ hne
            cases hst : fs (backupPathFor targetDir relPath) with
            | none =>
              exfalso
              rw [hst] at hm
              simp only [process_file, h1, h2] at hra
              simp [h3, h4, hb, hbf, hfu, hwf, hm] at hra
            | some bc =>
              refine ⟨hb, hwf, Or.inr ?_⟩
              simp [hst]
          · exfalso
            simp only [process_file, h1, h2] at hra
            simp [h3, h4, hb, hbf, hfu, hwf] at hra
        · have hsome : FS.write (FS.write fs (backupPathFor targetDir relPath) content)
              (joinPath targetDir relPath) faults.leftoverContent
              (backupPathFor targetDir relPath) = some content := by
            rw [FS.write_other _ _ _ _ hne, FS.write_self]
          refine ⟨hb, hwf, Or.inl ?_⟩
          simp only [process_file, h1, h2]
          simp [h3, h4, hb, hbf, hwf, hsome]
          by_cases hr : faults.restoreFails = true <;> simp [hr]
      · exfalso
        simp only [process_file, h1, h2] at hra
        by_cases hbf : faults.backupFails = true
        · by_cases hfu : args.force_unsafe = true
          · simp [h3, h4, hb, hbf, hfu, hwf] at hra
          · simp [h3, h4, hb, hbf, hfu, hwf] at hra
        · simp [h3, h4, hb, hbf, hwf] at hra
    · exfalso
      simp only [process_file, h1, h2] at hra
      by_cases hwf : faults.writeFails = true
      · simp [h3, h4, hb, hwf] at hra
      · simp [h3, h4, hb, hwf] at hra
  · intro hb hbf hfu hwf hstale
    have hm : FS.write fs (joinPath targetDir relPath) faults.leftoverContent
        (backupPathFor targetDir relPath) = none := by
      rw [FS.write_other _ _ _ _ hne]
      exact hstale
    simp only [process_file, h1, h2]
    simp [h3, h4, hb, hbf, hfu, hwf, hm]

/-- Witness for C10 at a concrete input: backup creation fails, the unsafe
override lets the write proceed, the write fails, no stale backup exists —
no restore is attempted and no critical report is made. -/
theorem c10_restore_guard_witness :
    (process_file (FS.write emptyFS (joinPath ['t'] ['a']) ['#', 'a'])
        ['t'] ['a'] ⟨false, true, true⟩
        (LexOutcome.tokens [⟨.comment false, ['#', 'a']⟩])
        ⟨false, true, true, false, []⟩).restoreAttempted = false ∧
    (process_file (FS.write emptyFS (joinPath ['t'] ['a']) ['#', 'a'])
        ['t'] ['a'] ⟨false, true, true⟩
        (LexOutcome.tokens [⟨.comment false, ['#', 'a']⟩])
        ⟨false, true, true, false, []⟩).criticalReported = false ∧
    (process_file (FS.write emptyFS (joinPath ['t'] ['a']) ['#', 'a'])
        ['t'] ['a'] ⟨false, true, true⟩
        (LexOutcome.tokens [⟨.comment false, ['#', 'a']⟩])
        ⟨false, true, true, false, []⟩).ret = false :=
  (c10_restore_guard (FS.write emptyFS (joinPath ['t'] ['a']) ['#', 'a'])
    ['t'] ['a'] ⟨false, true, true⟩ (LexOutcome.tokens [⟨.comment false, ['#', 'a']⟩])
    ⟨false, true, true, false, []⟩ ['#', 'a']
    rfl (by decide) (by decide) rfl).2 rfl rfl rfl rfl (by decide)

/-- C10 counterexample to the claim as stated: with a stale backup file left
at the mirrored path by an earlier run, a write failure after a failed backup
creation under the unsafe override DOES attempt a restore — and it restores
the stale content over the file. -/
theorem c10_counterexample_stale_backup_restore :
    (process_file
        (FS.write (FS.write emptyFS (joinPath ['t'] ['a']) ['#', 'a'])
          (backupPathFor ['t'] ['a']) ['s'])
        ['t'] ['a'] ⟨false, true, true⟩
        (LexOutcome.tokens [⟨.comment false, ['#', 'a']⟩])
        ⟨false, true, true, false, []⟩).backupCreated = false ∧
    (process_file
        (FS.write (FS.write emptyFS (joinPath ['t'] ['a']) ['#', 'a'])
          (backupPathFor ['t'] ['a']) ['s'])
        ['t'] ['a'] ⟨false, true, true⟩
        (LexOutcome.tokens [⟨.comment false, ['#', 'a']⟩])
        ⟨false, true, true, false, []⟩).restoreAttempted = true ∧
    (process_file
        (FS.write (FS.write emptyFS (joinPath ['t'] ['a']) ['#', 'a'])
          (backupPathFor ['t'] ['a']) ['s'])
        ['t'] ['a'] ⟨false, true, true⟩
        (LexOutcome.tokens [⟨.comment false, ['#', 'a']⟩])
        ⟨false, true, true, false, []⟩).fs (joinPath ['t'] ['a']) = some ['s'] := by
  decide

theorem stepToken_firstToken (s : StripState) (t : Token) :
    (stepToken s t).firstToken = (s.firstToken && isDroppedCommentB t) := by
  cases s with
  | mk parts ft m =>
    cases ft <;> cases hc : tkIsComment t.kind <;>
      cases hp : tkIsPreprocComment t.kind <;>
      cases hs : startsWithShebang t.value <;>
      simp [stepToken, isDroppedCommentB, hc, hp, hs]

theorem foldl_stepToken_firstToken (ts : List Token) (s : StripState) :
    (List.foldl stepToken s ts).firstToken = (s.firstToken && ts.all isDroppedCommentB) := by
  induction ts generalizing s with
  | nil => simp
  | cons t ts ih =>
    rw [List.foldl_cons, ih, stepToken_firstToken, List.all_cons, Bool.and_assoc]

/-- C3 (amended): a comment-classified token is kept (as a shebang) if and
only if every earlier token was itself a dropped comment (comment-classified
and not preprocessor-with-shebang-text, so that `first_token` is still set),
the token is preprocessor-style, and its text begins with the two characters
of a shebang; every other comment-classified token contributes nothing. -/
theorem c3_shebang_kept_iff_no_token_kept_before (ts1 : List Token) (t : Token)
    (h : tkIsComment t.kind = true) :
    (stripFold (ts1 ++ [t])).parts = (stripFold ts1).parts ++
      (if ts1.all isDroppedCommentB && tkIsPreprocComment t.kind &&
          startsWithShebang t.value
        then [t.value] else []) := by
  unfold stripFold
  rw [List.foldl_append]
  have hft := foldl_stepToken_firstToken ts1 { parts := [], firstToken := true, modified := false }
  simp only [Bool.true_and] at hft
  simp only [List.foldl_cons, List.foldl_nil]
  cases hall : (ts1.all isDroppedCommentB) <;>
    cases hp : tkIsPreprocComment t.kind <;>
    cases hs : startsWithShebang t.value <;>
    rw [hall] at hft <;>
    simp [stepToken, h, hp, hs, hft]

/-- Witness for C3 at a concrete input: a lone preprocessor comment token
starting with the shebang characters is kept. -/
theorem c3_shebang_kept_iff_no_token_kept_before_witness :
    (stripFold ([] ++ [⟨.comment true, ['#', '!', 'a']⟩])).parts =
      (stripFold []).parts ++
        (if ([] : List Token).all isDroppedCommentB &&
            tkIsPreprocComment (Token.mk (.comment true) ['#', '!', 'a']).kind &&
            startsWithShebang (Token.mk (.comment true) ['#', '!', 'a']).value
          then [(Token.mk (.comment true) ['#', '!', 'a']).value] else []) :=
  c3_shebang_kept_iff_no_token_kept_before [] ⟨.comment true, ['#', '!', 'a']⟩ (by decide)

/-- C3 counterexample to the claim as stated: the second token of the stream
is comment-classified and is NOT the very first token emitted by the
tokenizer, yet it is preserved (because the first token, a dropped comment,
left `first_token` set); under the claim it would have to be dropped and the
residual text would be empty. -/
theorem c3_counterexample_second_token_kept :
    tkIsComment (Token.mk (.comment true) ['#', '!', 'x']).kind = true ∧
    (stripFold [⟨.comment false, ['c']⟩, ⟨.comment true, ['#', '!', 'x']⟩]).parts =
      [['#', '!', 'x']] ∧
    (stripTokens ['c', '#', '!', 'x']
      [⟨.comment false, ['c']⟩, ⟨.comment true, ['#', '!', 'x']⟩]).1 =
      ['#', '!', 'x', '\n'] := by
  decide

theorem collapseLines_eq_spec_aux (ls : List (List Char)) :
    collapseLines ls 0 = collapseSpec ls ∧
    ∀ c, collapseLines ls (c + 1) = skipBlanksSpec ls := by
  induction ls with
  | nil => exact ⟨rfl, fun _ => rfl⟩
  | cons l rest ih =>
    constructor
    · by_cases hl : nonBlankB l = true
      · simp [collapseLines, collapseSpec, hl, ih.1]
      · simp [collapseLines, collapseSpec, hl, ih.2 0]
    · intro c
      by_cases hl : nonBlankB l = true
      · simp [collapseLines, skipBlanksSpec, hl, ih.1]
      · have hgt : ¬(c + 1 + 1 ≤ 1) := by omega
        simp [collapseLines, skipBlanksSpec, hl, hgt, ih.2 (c + 1)]

theorem collapseLines_filter (ls : List (List Char)) :
    ∀ c, (collapseLines ls c).filter nonBlankB = ls.filter nonBlankB := by
  induction ls with
  | nil => intro c; rfl
  | cons l rest ih =>
    intro c
    by_cases hl : nonBlankB l = true
    · simp [collapseLines, hl, List.filter_cons, ih 0]
    · by_cases hc : c + 1 ≤ 1
      · simp [collapseLines, hl, hc, List.filter_cons, ih (c + 1)]
      · simp [collapseLines, hl, hc, List.filter_cons, ih (c + 1)]

/-- C5: blank-line collapsing behaves exactly as specified — a line is blank
exactly when all its characters are whitespace, the collapsed list equals the
spec-side collapsing in which each run of consecutive blank lines keeps
exactly one blank line, and the non-blank lines pass through unchanged and in
order (the non-blank sublists coincide). -/
theorem c5_collapse_matches_spec (ls : List (List Char)) :
    collapseLines ls 0 = collapseSpec ls ∧
    (collapseLines ls 0).filter nonBlankB = ls.filter nonBlankB ∧
    (∀ l : List Char, nonBlankB l = false ↔ ∀ c ∈ l, isPySpace c = true) := by
  refine ⟨(collapseLines_eq_spec_aux ls).1, collapseLines_filter ls 0, ?_⟩
  intro l
  simp [nonBlankB, List.any_eq_false]

/-- Witness instance for C5 on a concrete line list. -/
theorem c5_collapse_matches_spec_witness :
    collapseLines [['a'], [], []] 0 = collapseSpec [['a'], [], []] ∧
    (collapseLines [['a'], [], []] 0).filter nonBlankB =
      [['a'], [], []].filter nonBlankB :=
  ⟨(c5_collapse_matches_spec [['a'], [], []]).1,
   (c5_collapse_matches_spec [['a'], [], []]).2.1⟩

set_option maxHeartbeats 1000000 in
theorem splitlinesAux_no_break : ∀ (cur s : List Char),
    (∀ c ∈ cur, isLineBreak c = false) →
    ∀ l ∈ splitlinesAux cur s, ∀ c ∈ l, isLineBreak c = false := by
  intro cur s
  induction cur, s using splitlinesAux.induct with
  | case1 cur hemp =>
    intro hcur l hl
    simp [splitlinesAux, hemp] at hl
  | case2 cur hemp =>
    intro hcur l hl c hc
    simp [splitlinesAux, hemp] at hl
    subst hl
    exact hcur c (by simpa using hc)
  | case3 cur rest ih =>
    intro hcur l hl c hc
    rw [splitlinesAux] at hl
    rcases List.mem_cons.mp hl with h | h
    · subst h
      exact hcur c (by simpa using hc)
    · exact ih (by simp) l h c hc
  | case4 cur c0 rest hne hbrk ih =>
    intro hcur l hl c hc
    rw [splitlinesAux.eq_3 _ _ _ hne, if_pos hbrk] at hl
    rcases List.mem_cons.mp hl with h | h
    · subst h
      exact hcur c (by simpa using hc)
    · exact ih (by simp) l h c hc
  | case5 cur c0 rest hne hbrk ih =>
    intro hcur l hl c hc
    rw [splitlinesAux.eq_3 _ _ _ hne, if_neg hbrk] at hl
    refine ih ?_ l hl c hc
    intro d hd
    rcases List.mem_cons.mp hd with h | h
    · subst h
      simpa using hbrk
    · exact hcur d h

theorem splitlines_no_break (s : List Char) :
    ∀ l ∈ splitlines s, ∀ c ∈ l, isLineBreak c = false :=
  splitlinesAux_no_break [] s (by simp)

theorem collapseLines_mem : ∀ (ls : List (List Char)) (c : Nat) (l : List Char),
    l ∈ collapseLines ls c → l ∈ ls := by
  intro ls
  induction ls with
  | nil => intro c l hl; simp [collapseLines] at hl
  | cons x rest ih =>
    intro c l hl
    by_cases hx : nonBlankB x = true
    · rw [collapseLines, if_pos hx] at hl
      rcases List.mem_cons.mp hl with h | h
      · exact h ▸ List.mem_cons_self x rest
      · exact List.mem_cons_of_mem x (ih 0 l h)
    · rw [collapseLines, if_neg hx] at hl
      by_cases hc : c + 1 ≤ 1
      · rw [if_pos hc] at hl
        rcases List.mem_cons.mp hl with h | h
        · exact h ▸ List.mem_cons_self x rest
        · exact List.mem_cons_of_mem x (ih (c + 1) l h)
      · rw [if_neg hc] at hl
        exact List.mem_cons_of_mem x (ih (c + 1) l hl)

theorem noTwoAdjBlank_tail : ∀ (x : List Char) (t : List (List Char)),
    noTwoAdjBlank (x :: t) → noTwoAdjBlank t := by
  intro x t h
  cases t with
  | nil => trivial
  | cons y t2 => exact h.2

theorem noTwoAdjBlank_cons (x : List Char) (t : List (List Char))
    (ht : noTwoAdjBlank t)
    (hhead : ∀ h tl, t = h :: tl → nonBlankB x = true ∨ nonBlankB h = true) :
    noTwoAdjBlank (x :: t) := by
  cases t with
  | nil => trivial
  | cons y t2 => exact ⟨hhead y t2 rfl, ht⟩

theorem noTwoAdjBlank_last2 : ∀ (xs : List (List Char)) (a b : List Char),
    noTwoAdjBlank (xs ++ [a, b]) → nonBlankB a = true ∨ nonBlankB b = true := by
  intro xs
  induction xs with
  | nil => intro a b h; exact h.1
  | cons x xs ih =>
    intro a b h
    exact ih a b (noTwoAdjBlank_tail x _ h)

theorem collapseLines_invariant : ∀ (ls : List (List Char)) (c : Nat),
    noTwoAdjBlank (collapseLines ls c) ∧
    (c ≠ 0 → ∀ h tl, collapseLines ls c = h :: tl → nonBlankB h = true) := by
  intro ls
  induction ls with
  | nil =>
    intro c
    refine ⟨trivial, ?_⟩
    intro _ h tl hh
    simp [collapseLines] at hh
  | cons x rest ih =>
    intro c
    by_cases hx : nonBlankB x = true
    · rw [collapseLines, if_pos hx]
      constructor
      · refine noTwoAdjBlank_cons x _ (ih 0).1 ?_
        intro h tl _
        exact Or.inl hx
      · intro _ h tl hh
        rw [List.cons.injEq] at hh
        exact hh.1 ▸ hx
    · rw [collapseLines, if_neg hx]
      by_cases hc : c + 1 ≤ 1
      · rw [if_pos hc]
        constructor
        · refine noTwoAdjBlank_cons x _ (ih (c + 1)).1 ?_
          intro h tl hh
          exact Or.inr ((ih (c + 1)).2 (by omega) h tl hh)
        · intro hc0 h tl hh
          exfalso
          omega
      · rw [if_neg hc]
        exact ⟨(ih (c + 1)).1, fun _ => (ih (c + 1)).2 (by omega)⟩

theorem endsWithNL_iff (s : List Char) : endsWithNL s = true ↔ s.getLast? = some '\n' := by
  rw [endsWithNL]
  cases h : s.getLast? with
  | none => simp
  | some c => simp

theorem joinNL_concat : ∀ (L : List (List Char)) (a : List Char), L ≠ [] →
    joinNL (L ++ [a]) = joinNL L ++ '\n' :: a := by
  intro L
  induction L with
  | nil => intro a h; exact absurd rfl h
  | cons x t ih =>
    intro a _
    cases t with
    | nil => rfl
    | cons y t2 =>
      have hih := ih a (by simp)
      show x ++ '\n' :: joinNL ((y :: t2) ++ [a]) = (x ++ '\n' :: joinNL (y :: t2)) ++ '\n' :: a
      rw [hih]
      simp

theorem mem_joinNL : ∀ (L : List (List Char)) (l : List Char) (c : Char),
    l ∈ L → c ∈ l → c ∈ joinNL L := by
  intro L
  induction L with
  | nil => intro l c hl; simp at hl
  | cons x t ih =>
    intro l c hl hc
    cases t with
    | nil =>
      rw [List.mem_singleton] at hl
      subst hl
      exact hc
    | cons y t2 =>
      rw [joinNL]
      rcases List.mem_cons.mp hl with h | h
      · exact List.mem_append_left _ (h ▸ hc)
      · exact List.mem_append_right _ (List.mem_cons_of_mem _ (ih l c h hc))

theorem getLast?_joinNL_concat (L : List (List Char)) (prev : List Char)
    (h : prev ≠ []) : (joinNL (L ++ [prev])).getLast? = prev.getLast? := by
  cases L with
  | nil => rfl
  | cons x t =>
    rw [joinNL_concat (x :: t) prev (by simp),
      List.getLast?_append_of_ne_nil _ (by simp)]
    cases prev with
    | nil => exact absurd rfl h
    | cons p ps => exact List.getLast?_cons_cons

theorem normalize_collapsed_one_newline (s : List Char)
    (hne : joinNL (collapseLines (splitlines s) 0) ≠ []) :
    endsWithOneNL (normalizeText (joinNL (collapseLines (splitlines s) 0))) := by
  have hnobrk : ∀ l ∈ collapseLines (splitlines s) 0, ∀ c ∈ l, isLineBreak c = false :=
    fun l hl => splitlines_no_break s l (collapseLines_mem _ 0 l hl)
  by_cases hE : endsWithNL (joinNL (collapseLines (splitlines s) 0)) = true
  · -- the joined collapsed text already ends in a newline: its last line is
    -- empty, the line before is non-blank, so nothing changes and the text
    -- ends in exactly one newline
    rcases List.eq_nil_or_concat (collapseLines (splitlines s) 0) with hnil | ⟨L', a, hLa⟩
    · rw [hnil] at hne
      exact absurd rfl hne
    rw [List.concat_eq_append] at hLa
    have ha : a = [] := by
      by_contra hane
      rw [endsWithNL_iff, hLa, getLast?_joinNL_concat L' a hane] at hE
      have hmem := List.mem_of_getLast?_eq_some hE
      have := hnobrk a (by rw [hLa]; simp) '\n' hmem
      simp [isLineBreak] at this
    subst ha
    have hL'ne : L' ≠ [] := by
      intro h
      rw [hLa, h] at hne
      exact absurd rfl hne
    have hmc_eq : joinNL (collapseLines (splitlines s) 0) = joinNL L' ++ ['\n'] := by
      rw [hLa, joinNL_concat L' [] hL'ne]
    rcases List.eq_nil_or_concat L' with h | ⟨L'', prev, hL''⟩
    · exact absurd h hL'ne
    rw [List.concat_eq_append] at hL''
    have hprev : nonBlankB prev = true := by
      have hinv := (collapseLines_invariant (splitlines s) 0).1
      rw [hLa, hL''] at hinv
      rcases noTwoAdjBlank_last2 L'' prev []
          (by simpa [List.append_assoc] using hinv) with h | h
      · exact h
      · simp [nonBlankB] at h
    have hprev_ne : prev ≠ [] := by
      intro h
      rw [h] at hprev
      simp [nonBlankB] at hprev
    obtain ⟨c0, hc0mem, hc0⟩ : ∃ c0 ∈ prev, isPySpace c0 = false := by
      rcases List.any_eq_true.mp hprev with ⟨c0, hm, hx⟩
      exact ⟨c0, hm, by simpa using hx⟩
    have hc0mc : c0 ∈ joinNL (collapseLines (splitlines s) 0) := by
      rw [hmc_eq]
      exact List.mem_append_left _
        (mem_joinNL L' prev c0 (by rw [hL'']; simp) hc0mem)
    have hnotall : ¬((joinNL (collapseLines (splitlines s) 0)).all isPySpace = true) := by
      intro hall
      have := List.all_eq_true.mp hall c0 hc0mc
      rw [hc0] at this
      exact absurd this (by simp)
    have hnorm : normalizeText (joinNL (collapseLines (splitlines s) 0)) =
        joinNL (collapseLines (splitlines s) 0) := by
      rw [normalizeText, if_neg (fun hand => by rw [hE] at hand; exact absurd hand.2 (by simp)),
        if_neg hnotall]
    rw [hnorm]
    constructor
    · exact (endsWithNL_iff _).mp hE
    · rw [hmc_eq, List.dropLast_concat, hL'', getLast?_joinNL_concat L'' prev hprev_ne]
      intro hcon
      have hmem := List.mem_of_getLast?_eq_some hcon
      have := hnobrk prev (by rw [hLa, hL'']; simp) '\n' hmem
      simp [isLineBreak] at this
  · -- no trailing newline yet: one is appended, and the character before it
    -- is the old last character, which is not a newline
    have hEf : endsWithNL (joinNL (collapseLines (splitlines s) 0)) = false := by
      simpa using hE
    have hnorm : normalizeText (joinNL (collapseLines (splitlines s) 0)) =
        joinNL (collapseLines (splitlines s) 0) ++ ['\n'] := by
      rw [normalizeText, if_pos ⟨hne, hEf⟩]
    rw [hnorm]
    constructor
    · exact List.getLast?_concat _
    · rw [List.dropLast_concat]
      intro hcon
      rw [endsWithNL_iff _] at hE
      exact hE hcon

/-- C2 (amended): whenever at least one comment token is dropped, the
returned residual text is the empty string when the collapsed text is empty,
and otherwise ends with exactly one trailing newline — including when the
collapsed text is entirely whitespace but non-empty, in which case it is NOT
normalized to the empty string (the source's `elif` is shadowed by the
newline-appending branch) but instead keeps its whitespace and gains the one
trailing newline. -/
theorem c2_trailing_newline_normalization (content : List Char) (ts : List Token)
    (h : (stripFold ts).modified = true) :
    (collapsedText ts = [] → (stripTokens content ts).1 = []) ∧
    (collapsedText ts ≠ [] → endsWithOneNL (stripTokens content ts).1) := by
  have h1 : (stripTokens content ts).1 = normalizeText (collapsedText ts) := by
    simp only [stripTokens, h]
    simp
  constructor
  · intro hc
    rw [h1, hc]
    rfl
  · intro hc
    rw [h1]
    exact normalize_collapsed_one_newline (survivorText ts) hc

/-- Witness for C2 at a concrete input: dropping one comment and keeping one
code token yields a residual ending in exactly one newline. -/
theorem c2_trailing_newline_normalization_witness :
    (stripFold [⟨.comment false, ['#', 'a']⟩, ⟨.code, ['b']⟩]).modified = true ∧
    endsWithOneNL (stripTokens ['#', 'a', 'b']
      [⟨.comment false, ['#', 'a']⟩, ⟨.code, ['b']⟩]).1 :=
  ⟨by decide,
   (c2_trailing_newline_normalization ['#', 'a', 'b']
      [⟨.comment false, ['#', 'a']⟩, ⟨.code, ['b']⟩] (by decide)).2 (by decide)⟩

/-- C2 counterexample to the claim as stated: the collapsed residual text is
the single space — entirely whitespace — yet it is not normalized to the
empty string: the result is the space followed by a newline, because the
newline-appending branch fires first and the `elif` never runs. -/
theorem c2_counterexample_whitespace_not_emptied :
    (stripFold [⟨.comment false, ['#', 'c']⟩, ⟨.code, [' ']⟩]).modified = true ∧
    collapsedText [⟨.comment false, ['#', 'c']⟩, ⟨.code, [' ']⟩] = [' '] ∧
    ([' '] : List Char).all isPySpace = true ∧
    (stripTokens ['#', 'c', ' ']
      [⟨.comment false, ['#', 'c']⟩, ⟨.code, [' ']⟩]).1 = [' ', '\n'] := by
  decide

theorem cexTokenizer_lossless : LosslessTokenizer cexTokenizer := by
  intro s
  rw [cexTokenizer]
  split_ifs with h1 h2
  · subst h1; decide
  · subst h2; decide
  · simp

/-- C9 (amended): a second strip of the residual text yields
wasModified = false provided the second tokenization drops no comment token
(the no-drop short-circuit returns the text unchanged); idempotence does not
hold unconditionally, because retokenizing the residual can produce new
droppable comment tokens. -/
theorem c9_second_strip_unmodified_when_no_drop (text : List Char) (ts : List Token)
    (h : (stripFold ts).modified = false) :
    stripTokens text ts = (text, false, 0) := by
  rw [stripTokens, if_pos h]

/-- Witness for C9 at a concrete input: retokenizing a comment-free residual
drops nothing, so the second strip reports no modification. -/
theorem c9_second_strip_unmodified_when_no_drop_witness :
    stripTokens ['x', '\n'] [⟨.code, ['x', '\n']⟩] = (['x', '\n'], false, 0) :=
  c9_second_strip_unmodified_when_no_drop ['x', '\n'] [⟨.code, ['x', '\n']⟩] (by decide)

/-- C9 counterexample to the claim as stated: with the same deterministic,
lossless tokenizer throughout, the first strip succeeds (wasModified = true,
residual the two characters x-newline), yet stripping that residual with the
same tokenizer again yields wasModified = true, because the retokenization
classifies the residual as a comment token. -/
theorem c9_counterexample_not_idempotent :
    LosslessTokenizer cexTokenizer ∧
    (stripTokens ['x', '#', 'c'] (cexTokenizer ['x', '#', 'c'])).2.1 = true ∧
    (stripTokens ['x', '#', 'c'] (cexTokenizer ['x', '#', 'c'])).1 = ['x', '\n'] ∧
    (stripTokens (stripTokens ['x', '#', 'c'] (cexTokenizer ['x', '#', 'c'])).1
      (cexTokenizer (stripTokens ['x', '#', 'c'] (cexTokenizer ['x', '#', 'c'])).1)).2.1 =
      true :=
  ⟨cexTokenizer_lossless, by decide, by decide, by decide⟩
